import Mathlib

/-!
# ImGTA memory watcher (`src/ImGTA/mem_watcher_mod.cpp`)

A shallow embedding of the watch registry of `MemWatcherMod`: the add dialog
(`ShowAddAddress`), the entry popup (`ShowSelectedPopup`), sorting
(`SortWatches`, `CompareWatch`) and persistence (`LoadWatches`, `SaveWatches`).

Conventions.
* C++ `int` members are `Int`.  The add dialog clips its index to 0..999999 and its
  range size to 1..100, so `m_inputAddressIndex + i` is exact.  The stride and offset
  of an Array entry are not clipped; the arithmetic on them (line 348) is reduced to
  32-bit two's complement, `wrapInt32`, as the compiled code computes it.
* The 8-byte script slot behind `uint64_t* val` is a `Nat` below `2 ^ 64`; unsigned
  arithmetic wraps, so it is written with an explicit `% 2 ^ 64`.
* The mutex and the drawing calls have no effect on the registry and are left out.
* Services of the host game (address lookup, script hashes) are fields of `Host`.
-/

namespace ImGTA

/-! ## Data model -/

/-- The enumeration `WatchType`, in the order of `watchTypeNames`. -/
inductive WatchType where
  | kInt | kFloat | kString | kVector3 | kBitfield32 | kArray
  deriving DecidableEq, Repr

/-- The integer value of an enumerator (its position in `watchTypeNames`). -/
def WatchType.toNat : WatchType → Nat
  | .kInt => 0
  | .kFloat => 1
  | .kString => 2
  | .kVector3 => 3
  | .kBitfield32 => 4
  | .kArray => 5

/-- Modelled from the spec: the scalar members of class `WatchEntry`, whose declaration
(`mem_watcher_mod.h`) is not among the sources.  The member names are the ones the
source file uses. -/
structure WatchItem where
  m_addressIndex : Int
  m_type : WatchType
  m_arrayItemType : WatchType
  m_scriptName : String
  m_scriptHash : Int
  m_info : String
  m_itemSizeQWORD : Int
  m_arrayIndexInItem : Int
  m_value : String
  m_showInGame : Bool
  m_scriptRunning : Bool
  m_isArrayItem : Bool
  deriving DecidableEq, Repr

/-- Modelled from the spec: class `WatchEntry`.  `m_arrayWatches` holds the element
watches of an Array entry; arrays do not nest, so an element watch is given by its
scalar members. -/
structure WatchEntry extends WatchItem where
  m_arrayWatches : List WatchItem
  deriving DecidableEq, Repr

/-- Modelled from the spec: the constructor
`WatchEntry(addressIndex, type, arrayItemType, scriptName, scriptHash, info, itemSizeQWORD, indexInItem)`
of the absent header.  It stores its arguments; the entry starts without element watches. -/
def WatchEntry.new (addressIndex : Int) (type arrayItemType : WatchType) (scriptName : String)
    (scriptHash : Int) (info : String) (itemSizeQWORD indexInItem : Int) : WatchEntry where
  m_addressIndex := addressIndex
  m_type := type
  m_arrayItemType := arrayItemType
  m_scriptName := scriptName
  m_scriptHash := scriptHash
  m_info := info
  m_itemSizeQWORD := itemSizeQWORD
  m_arrayIndexInItem := indexInItem
  m_value := ""
  m_showInGame := true
  m_scriptRunning := true
  m_isArrayItem := false
  m_arrayWatches := []

/-- Services of the host game used by the add dialog.  A pointer is represented by
whether it is non-null. -/
structure Host where
  GetGlobalPtr : Int → Bool
  GetThreadAddress : Int → Int → Bool
  GET_HASH_KEY : String → Int
  GET_NUMBER_OF_REFERENCES_OF_SCRIPT_WITH_NAME_HASH : Int → Int

/-- The members of `MemWatcherMod` that the registry operations read or write. -/
structure MemWatcherMod where
  m_watches : List WatchEntry
  saveGlobals : Bool
  m_inputAddressIndex : Int
  m_indexRange : Int
  m_inputType : WatchType
  m_inputArrayItemType : WatchType
  m_inputItemSizeQWORD : Int
  m_inputIndexInItem : Int
  m_scriptName : String
  m_scriptHash : Int
  m_scriptRunning : Bool
  m_watchInfo : String
  m_inputsUpdated : Bool
  m_addressAvailable : Bool
  m_variableAlreadyWatched : Bool
  m_autoScrollDown : Bool

/-- The starting state of the concrete runs below: empty registry, persist option on,
input index 0, range size 1, type Int, no script named and no message pending.  (The
member initialisers themselves are in the absent header.) -/
def MemWatcherMod.init : MemWatcherMod where
  m_watches := []
  saveGlobals := true
  m_inputAddressIndex := 0
  m_indexRange := 1
  m_inputType := .kInt
  m_inputArrayItemType := .kInt
  m_inputItemSizeQWORD := 1
  m_inputIndexInItem := 0
  m_scriptName := ""
  m_scriptHash := 0
  m_scriptRunning := false
  m_watchInfo := ""
  m_inputsUpdated := false
  m_addressAvailable := true
  m_variableAlreadyWatched := false
  m_autoScrollDown := false

/-! ## `ShowAddAddress` -/

/-- Modelled from the spec: `ClipInt(x, lo, hi)` of the absent `utils.h` clamps `x`
into `lo..hi`. -/
def ClipInt (x lo hi : Int) : Int := max lo (min x hi)

/-- What the widgets of one frame of the add dialog report: `some v` when the widget
returned true and wrote `v`, and whether the Add button was pressed. -/
structure AddAddressUi where
  index : Option Int := none
  range : Option Int := none
  type : Option WatchType := none
  arrayItemType : Option WatchType := none
  itemSizeQWORD : Option Int := none
  indexInItem : Option Int := none
  scriptName : Option String := none
  info : Option String := none
  add : Bool := false

/-- The duplicate test of lines 272-283: some entry has the input index, the script hash
`tmpScriptHash` and the input type. -/
def alreadyWatched (watches : List WatchEntry) (index tmpScriptHash : Int) (type : WatchType) :
    Bool :=
  watches.any fun watch =>
    watch.m_addressIndex == index && watch.m_scriptHash == tmpScriptHash && watch.m_type == type

/-- The entries pushed by the loop of lines 287-293, for `i = 0, ..., m_indexRange - 1`. -/
def newWatches (isGlobal : Bool) (s : MemWatcherMod) : List WatchEntry :=
  (List.range s.m_indexRange.toNat).map fun (i : Nat) =>
    if isGlobal then
      WatchEntry.new (s.m_inputAddressIndex + (i : Int)) s.m_inputType s.m_inputArrayItemType "Global" 0
        s.m_watchInfo s.m_inputItemSizeQWORD s.m_inputIndexInItem
    else
      WatchEntry.new (s.m_inputAddressIndex + (i : Int)) s.m_inputType s.m_inputArrayItemType
        s.m_scriptName s.m_scriptHash s.m_watchInfo s.m_inputItemSizeQWORD s.m_inputIndexInItem

/-- Whether the target address of the pending add resolves (lines 256-265). -/
def addressResolves (h : Host) (isGlobal : Bool) (s : MemWatcherMod) : Bool :=
  if isGlobal then h.GetGlobalPtr s.m_inputAddressIndex
  else h.GetThreadAddress s.m_inputAddressIndex s.m_scriptHash

/-- The body of `if (ImGui::Button("Add##AddAddress"))`, lines 255-299. -/
def addPressed (h : Host) (isGlobal : Bool) (s : MemWatcherMod) : MemWatcherMod :=
  let s1 := { s with m_addressAvailable := addressResolves h isGlobal s }
  let s2 :=
    if s1.m_addressAvailable then
      let tmpScriptHash := if isGlobal then 0 else s1.m_scriptHash
      let s3 := { s1 with
        m_variableAlreadyWatched :=
          alreadyWatched s1.m_watches s1.m_inputAddressIndex tmpScriptHash s1.m_inputType }
      if !s3.m_variableAlreadyWatched then
        { s3 with m_watches := s3.m_watches ++ newWatches isGlobal s3, m_autoScrollDown := true }
      else s3
    else s1
  { s2 with m_inputsUpdated := false }

/-- One frame of `ShowAddAddress(isGlobal)`: the input widgets in source order
(lines 194-249), then the Add button, which is only offered for a global add or while
the named script is running (line 251). -/
def ShowAddAddress (h : Host) (isGlobal : Bool) (ui : AddAddressUi) (s : MemWatcherMod) :
    MemWatcherMod :=
  let s : MemWatcherMod := match ui.index with
    | some v =>
      { s with m_inputAddressIndex := ClipInt v 0 999999, m_indexRange := 1, m_inputsUpdated := true }
    | none => s
  let s : MemWatcherMod := match ui.range with
    | some v => { s with m_indexRange := ClipInt v 1 100 }
    | none => s
  let s : MemWatcherMod := match ui.type with
    | some t => { s with m_inputType := t, m_inputsUpdated := true }
    | none => s
  let s : MemWatcherMod :=
    if s.m_inputType = .kArray then
      let s : MemWatcherMod := match ui.arrayItemType with
        | some t => { s with m_inputArrayItemType := t, m_inputsUpdated := true }
        | none => s
      let s : MemWatcherMod := match ui.itemSizeQWORD with
        | some v => { s with m_inputItemSizeQWORD := v, m_inputsUpdated := true }
        | none => s
      match ui.indexInItem with
        | some v => { s with m_inputIndexInItem := v, m_inputsUpdated := true }
        | none => s
    else s
  let s : MemWatcherMod :=
    if !isGlobal then
      match ui.scriptName with
        | some n =>
          let hash := h.GET_HASH_KEY n
          { s with
            m_scriptName := n
            m_scriptHash := hash
            m_scriptRunning := decide (h.GET_NUMBER_OF_REFERENCES_OF_SCRIPT_WITH_NAME_HASH hash > 0)
            m_inputsUpdated := true }
        | none => s
    else s
  let s : MemWatcherMod := match ui.info with
    | some t => { s with m_watchInfo := t }
    | none => s
  if isGlobal || (!isGlobal && s.m_scriptRunning) then
    if ui.add then addPressed h isGlobal s else s
  else s

/-- The red messages drawn below the dialog (lines 308-315), in drawing order. -/
def errorMessages (s : MemWatcherMod) : List String :=
  if !s.m_inputsUpdated then
    (if !s.m_addressAvailable then ["Cannot get memory address"] else []) ++
      (if s.m_variableAlreadyWatched then ["This variable is already on the watch list"] else [])
  else []

/-- The script hash an add registers its entries under: 0 for a global add. -/
def addScriptHash (isGlobal : Bool) (s : MemWatcherMod) : Int :=
  if isGlobal then 0 else s.m_scriptHash

/-- Two entries carry the same `(addressIndex, scriptHash, type)` tuple. -/
def sameTuple (a b : WatchEntry) : Prop :=
  a.m_addressIndex = b.m_addressIndex ∧ a.m_scriptHash = b.m_scriptHash ∧ a.m_type = b.m_type

instance (a b : WatchEntry) : Decidable (sameTuple a b) := by
  unfold sameTuple; infer_instance

/-- No two entries at different positions of the registry share their tuple. -/
def uniqueTuples (watches : List WatchEntry) : Prop :=
  watches.Pairwise fun a b => ¬ sameTuple a b

instance (watches : List WatchEntry) : Decidable (uniqueTuples watches) := by
  unfold uniqueTuples; infer_instance

/-- A host in which every address resolves and every script runs. -/
def Host.allAvailable : Host where
  GetGlobalPtr := fun _ => true
  GetThreadAddress := fun _ _ => true
  GET_HASH_KEY := fun n => n.length
  GET_NUMBER_OF_REFERENCES_OF_SCRIPT_WITH_NAME_HASH := fun _ => 1

/-- A host in which the global addresses below `limit` resolve and no others. -/
def Host.globalsBelow (limit : Int) : Host where
  GetGlobalPtr := fun index => decide (index < limit)
  GetThreadAddress := fun _ _ => false
  GET_HASH_KEY := fun n => n.length
  GET_NUMBER_OF_REFERENCES_OF_SCRIPT_WITH_NAME_HASH := fun _ => 1

/-- A host in which no address resolves. -/
def Host.noneAvailable : Host where
  GetGlobalPtr := fun _ => false
  GetThreadAddress := fun _ _ => false
  GET_HASH_KEY := fun n => n.length
  GET_NUMBER_OF_REFERENCES_OF_SCRIPT_WITH_NAME_HASH := fun _ => 1

/-- Runs frames of the add dialog one after the other, `isGlobal` telling whether it is
the dialog "Add Global Index" or "Add Local Index". -/
def runFrames (h : Host) (isGlobal : Bool) (frames : List AddAddressUi) (s : MemWatcherMod) :
    MemWatcherMod :=
  frames.foldl (fun st ui => ShowAddAddress h isGlobal ui st) s

/-! ## `ShowSelectedPopup` -/

/-- The value of a 32-bit `int` whose exact value would be `x`: `x` reduced to two's
complement, within -2147483648..2147483647. -/
def wrapInt32 (x : Int) : Int := (x + 2147483648) % 4294967296 - 2147483648

/-- The right-hand side of line 348,
`m_addressIndex + 1 + index * m_itemSizeQWORD + m_arrayIndexInItem`, evaluated in `int`
from left to right with the product first. -/
def childIndex (parent : WatchEntry) (index : Nat) : Int :=
  wrapInt32 (wrapInt32 (wrapInt32 (parent.m_addressIndex + 1) +
    wrapInt32 ((index : Int) * parent.m_itemSizeQWORD)) + parent.m_arrayIndexInItem)

/-- The loop of lines 345-351 over `m_arrayWatches`, `index` counting from its start
value: every element watch gets its address index and its type from the parent. -/
def updateSubWatchesFrom (parent : WatchEntry) : Nat → List WatchItem → List WatchItem
  | _, [] => []
  | index, watch :: rest =>
    { watch with
      m_addressIndex := childIndex parent index
      m_type := parent.m_arrayItemType } :: updateSubWatchesFrom parent (index + 1) rest

/-- The block "update sub watches" (lines 344-351), `index` starting at 0. -/
def updateSubWatches (e : WatchEntry) : WatchEntry :=
  { e with m_arrayWatches := updateSubWatchesFrom e 0 e.m_arrayWatches }

/-- What the three array widgets of the popup report in one frame. -/
structure ArrayParamsUi where
  indexInItem : Option Int := none
  arrayItemType : Option WatchType := none
  itemSizeQWORD : Option Int := none

/-- Lines 337-354 of `ShowSelectedPopup` on the selected entry.  The three widgets are
joined by `||`, so the first one that reports a change ends the condition; a reported
change is followed by the update of the element watches. -/
def editArrayParams (ui : ArrayParamsUi) (e : WatchEntry) : WatchEntry :=
  if e.m_type = .kArray then
    match ui.indexInItem with
    | some v => updateSubWatches { e with m_arrayIndexInItem := v }
    | none =>
      match ui.arrayItemType with
      | some t => updateSubWatches { e with m_arrayItemType := t }
      | none =>
        match ui.itemSizeQWORD with
        | some v => updateSubWatches { e with m_itemSizeQWORD := v }
        | none => e
  else e

/-- The 4-byte unsigned value at the start of the slot, `*(unsigned int*)val`
(little-endian host). -/
def low32 (slot : Nat) : Nat := slot % 2 ^ 32

/-- The other 4 bytes of the 8-byte slot. -/
def high32 (slot : Nat) : Nat := slot / 2 ^ 32

/-- The two shift buttons of `case WatchType::kBitfield32` (lines 395-398) on the
content of the slot `*val`, a `uint64_t`: `ls` and `rs` tell which button was pressed. -/
def bitfieldShiftButtons (ls rs : Bool) (slot : Nat) : Nat :=
  let slot := if ls then (slot <<< 1) % 2 ^ 64 else slot
  if rs then slot >>> 1 else slot

/-! ## `CompareWatch` and `SortWatches` -/

/-- `CompareWatch(a, b)`.  `std::string::operator<` is the lexicographic order of the
character sequences; the enumerators compare by value. -/
def CompareWatch (a b : WatchEntry) : Bool :=
  let aName := if a.m_scriptName = "Global" then "000Global" else a.m_scriptName
  let bName := if b.m_scriptName = "Global" then "000Global" else b.m_scriptName
  if aName.toList < bName.toList then true
  else if aName = bName then
    if a.m_addressIndex < b.m_addressIndex then true
    else if a.m_addressIndex = b.m_addressIndex then
      if a.m_type.toNat < b.m_type.toNat then true else false
    else false
  else false

/-- A range is sorted with respect to `comp` in the sense of the C++ standard: no
element compares less than an element before it. -/
def SortedBy {α : Type} (comp : α → α → Bool) (l : List α) : Prop :=
  l.Pairwise fun x y => comp y x = false

instance {α : Type} (comp : α → α → Bool) (l : List α) : Decidable (SortedBy comp l) := by
  unfold SortedBy; infer_instance

/-- The contract of `std::sort(first, last, comp)`: the range afterwards is a
permutation of the range before and is sorted with respect to `comp`.  The standard
promises nothing about the order of elements that `comp` does not tell apart. -/
def StdSort {α : Type} (comp : α → α → Bool) (before after : List α) : Prop :=
  after.Perm before ∧ SortedBy comp after

instance {α : Type} [DecidableEq α] (comp : α → α → Bool) (before after : List α) :
    Decidable (StdSort comp before after) := by
  unfold StdSort; infer_instance

/-- `MemWatcherMod::SortWatches`: `m_watches` becomes a result of
`std::sort(m_watches.begin(), m_watches.end(), CompareWatch)`. -/
def SortWatches (before after : List WatchEntry) : Prop :=
  StdSort CompareWatch before after

instance (before after : List WatchEntry) : Decidable (SortWatches before after) := by
  unfold SortWatches; infer_instance

/-- Inserts `x` into a sorted list behind every element that is not greater than `x`. -/
def insertSorted {α : Type} (comp : α → α → Bool) (x : α) : List α → List α
  | [] => [x]
  | y :: ys => if comp x y then x :: y :: ys else y :: insertSorted comp x ys

/-- A stable insertion sort: the elements are inserted from left to right, each behind
the elements already placed that are not greater.  It meets the contract `StdSort`
(`SortWatches_insertionSort`), so the contract has a result on every registry. -/
def insertionSort {α : Type} (comp : α → α → Bool) (l : List α) : List α :=
  l.foldl (fun sorted x => insertSorted comp x sorted) []

/-! ### `std::sort` as libstdc++ implements it (`bits/stl_algo.h`)

`SortWatches` leaves the sorting to the library.  What holds for every library is
stated with the contract `StdSort`; `std_sort` is the routine of one library, libstdc++,
function by function.  The range is a list, iterators are positions in it.  Loops that
the C++ leaves unguarded carry a bound here; on the runs of the library the bound is
never reached. -/

/-- A global entry: reserved script name "Global" and script hash 0. -/
def isGlobalEntry (e : WatchEntry) : Prop :=
  e.m_scriptName = "Global" ∧ e.m_scriptHash = 0

instance (e : WatchEntry) : Decidable (isGlobalEntry e) := by
  unfold isGlobalEntry; infer_instance

/-- Every global entry of the list stands before every entry that is not global. -/
def globalsFirst (l : List WatchEntry) : Prop :=
  l.Pairwise fun x y => ¬ (¬ isGlobalEntry x ∧ isGlobalEntry y)

instance (l : List WatchEntry) : Decidable (globalsFirst l) := by
  unfold globalsFirst; infer_instance

/-- The script name as `CompareWatch` reads it: "Global" stands as "000Global". -/
def sortName (e : WatchEntry) : String :=
  if e.m_scriptName = "Global" then "000Global" else e.m_scriptName

/-- The sort key in the lexicographic order of its three parts. -/
def orderKey (e : WatchEntry) : Lex (List Char × Lex (Int × Nat)) :=
  toLex ((sortName e).toList, toLex (e.m_addressIndex, e.m_type.toNat))

/-- An Int entry of a script, as the add dialog creates it. -/
def scriptInt (scriptName : String) (scriptHash : Int) (index : Int) (info : String) :
    WatchEntry :=
  WatchEntry.new index .kInt .kInt scriptName scriptHash info 1 0

/-! ## Persistence: `LoadWatches` and `SaveWatches` -/

/-- Modelled from the spec: the persisted record of an element watch.  The JSON
conversion of `WatchEntry` belongs to the absent header; by the spec a record carries
the entry's members except the runtime-only ones (cached value, liveness). -/
structure ItemRecord where
  addressIndex : Int
  type : WatchType
  arrayItemType : WatchType
  scriptName : String
  scriptHash : Int
  info : String
  itemSizeQWORD : Int
  arrayIndexInItem : Int
  isArrayItem : Bool
  deriving DecidableEq, Repr

/-- Modelled from the spec: the persisted record of a top-level entry, with the
records of its element watches in order. -/
structure WatchRecord extends ItemRecord where
  arrayWatches : List ItemRecord
  deriving DecidableEq, Repr

/-- Modelled from the spec: the persisted members of an element watch. -/
def WatchItem.toRecord (w : WatchItem) : ItemRecord where
  addressIndex := w.m_addressIndex
  type := w.m_type
  arrayItemType := w.m_arrayItemType
  scriptName := w.m_scriptName
  scriptHash := w.m_scriptHash
  info := w.m_info
  itemSizeQWORD := w.m_itemSizeQWORD
  arrayIndexInItem := w.m_arrayIndexInItem
  isArrayItem := w.m_isArrayItem

/-- Modelled from the spec: an element watch read back from its record; the runtime-only
members start as in a new entry. -/
def ItemRecord.toItem (r : ItemRecord) : WatchItem where
  m_addressIndex := r.addressIndex
  m_type := r.type
  m_arrayItemType := r.arrayItemType
  m_scriptName := r.scriptName
  m_scriptHash := r.scriptHash
  m_info := r.info
  m_itemSizeQWORD := r.itemSizeQWORD
  m_arrayIndexInItem := r.arrayIndexInItem
  m_value := ""
  m_showInGame := true
  m_scriptRunning := true
  m_isArrayItem := r.isArrayItem

/-- Modelled from the spec: `to_json` for `WatchEntry` (absent header). -/
def to_json (e : WatchEntry) : WatchRecord where
  toItemRecord := e.toWatchItem.toRecord
  arrayWatches := e.m_arrayWatches.map WatchItem.toRecord

/-- Modelled from the spec: `from_json` for `WatchEntry` (absent header). -/
def from_json (r : WatchRecord) : WatchEntry where
  toWatchItem := r.toItemRecord.toItem
  m_arrayWatches := r.arrayWatches.map ItemRecord.toItem

/-- The JSON values that matter to the store: `null`, a version-keyed document
(an object from version string to the entry records of that version), or any other
value. -/
inductive Json where
  | null
  | object (members : List (String × List WatchRecord))
  | other
  deriving DecidableEq, Repr

/-- Sets `key` in the members of an object: the value of an existing key is
overwritten, a new key is inserted. -/
def setMember (key : String) (value : List WatchRecord) :
    List (String × List WatchRecord) → List (String × List WatchRecord)
  | [] => [(key, value)]
  | (k, v) :: rest => if k = key then (k, value) :: rest else (k, v) :: setMember key value rest

/-- The member stored under `key`, if any. -/
def getMember (key : String) : List (String × List WatchRecord) → Option (List WatchRecord)
  | [] => none
  | (k, v) :: rest => if k = key then some v else getMember key rest

/-- `json::update(j)`: inserts all members of the object `j`, overwriting existing
keys.  A `null` target becomes an object first; on any other non-object the library
throws `type_error` (`none`). -/
def Json.update (target j : Json) : Option Json :=
  match target, j with
  | .object old, .object new =>
    some (.object (new.foldl (fun acc kv => setMember kv.1 kv.2 acc) old))
  | .null, .object new =>
    some (.object (new.foldl (fun acc kv => setMember kv.1 kv.2 acc) []))
  | _, _ => none

/-- `j.value(key, default_value)` converted to `std::vector<WatchEntry>`: the member
under `key` if the object has one, else the default; on a non-object the library throws
`type_error` (`none`). -/
def Json.value (j : Json) (key : String) (default_value : List WatchEntry) :
    Option (List WatchEntry) :=
  match j with
  | .object members =>
    match getMember key members with
    | some records => some (records.map from_json)
    | none => some default_value
  | _ => none

/-- `GetDefaultJson()`, with `GetGameVersionString()` as `version`. -/
def GetDefaultJson (version : String) : Json :=
  .object [(version, [])]

/-- The text of the file at `GetMemWatchFilePath()`: no bytes at all, the dump of a JSON
value, or other text that `json::accept` rejects. -/
inductive FileText where
  | empty
  | json (j : Json)
  | garbage
  deriving DecidableEq, Repr

/-- The file at `GetMemWatchFilePath()`: `none` when it does not exist. -/
abbrev Disk := Option FileText

/-- `std::ifstream f_in(path)`: the stream is good exactly when the file exists.
Opening reads nothing. -/
def ifstreamOpen (d : Disk) : Bool := d.isSome

/-- `std::ofstream f_out(path)`: the default mode `ios::out` creates the file, or
truncates an existing one to length zero. -/
def ofstreamOpen (_d : Disk) : Disk := some .empty

/-- `f_out << j`, flushed when the stream is destroyed. -/
def ofstreamWrite (j : Json) (_d : Disk) : Disk := some (.json j)

/-- What a first read through an input stream delivers: the bytes the file holds at
the time of the read when the stream is good, nothing when it is not. -/
def ifstreamRead (good : Bool) (d : Disk) : FileText :=
  if good then d.getD .empty else .empty

/-- `MemWatcherMod::LoadWatches`, with `GetGameVersionString()` as `version`.  `none` is
an exception thrown by the JSON library. -/
def LoadWatches (version : String) (s : MemWatcherMod) (d : Disk) :
    Option (MemWatcherMod × Disk) :=
  let f_in := ifstreamOpen d
  let (f_in, d) : Bool × Disk :=
    if !f_in then
      let d1 := ofstreamWrite (GetDefaultJson version) (ofstreamOpen d)
      (ifstreamOpen d1, d1)
    else (f_in, d)
  match ifstreamRead f_in d with
  | .json j =>
    match j.value version [] with
    | some watches => some ({ s with m_watches := watches }, d)
    | none => none
  | _ => some (s, d)

/-- `MemWatcherMod::SaveWatches`, with `GetGameVersionString()` as `version`.  Both
streams are opened (lines 76-77) before `json::accept(f_in)` reads (line 79). -/
def SaveWatches (version : String) (s : MemWatcherMod) (d : Disk) : Option Disk :=
  if s.saveGlobals then
    let f_in := ifstreamOpen d
    let d := ofstreamOpen d
    let jsonNew := Json.object [(version, s.m_watches.map to_json)]
    match ifstreamRead f_in d with
    | .json jsonOld =>
      match jsonOld.update jsonNew with
      | some merged => some (ofstreamWrite merged d)
      | none => none
    | _ => some (ofstreamWrite jsonNew d)
  else some d

/-- The entries of `version` that a store holds, as `LoadWatches` would deliver them. -/
def storedFor (version : String) (d : Disk) : Option (List WatchEntry) :=
  (LoadWatches version MemWatcherMod.init d).map fun r => r.1.m_watches

/-! ## Concrete inputs -/

/-- A module with the given registry, input index and range size, all else as in
`MemWatcherMod.init`. -/
def dialogWith (watches : List WatchEntry) (index range : Int) : MemWatcherMod :=
  { MemWatcherMod.init with
    m_watches := watches, m_inputAddressIndex := index, m_indexRange := range }

/-- One global Int entry at `index`, as the add dialog creates it. -/
def globalInt (index : Int) : WatchEntry :=
  WatchEntry.new index .kInt .kInt "Global" 0 "" 1 0

/-- An element watch with unset address index, as a child of a global Array entry. -/
def elementWatch (info : String) : WatchItem :=
  { (WatchEntry.new 0 .kInt .kInt "Global" 0 info 1 0).toWatchItem with m_isArrayItem := true }

/-- A global Array entry at index 50 with element type Float, stride 1, offset 0 and
three element watches. -/
def arrayAt50 : WatchEntry :=
  { WatchEntry.new 50 .kArray .kFloat "Global" 0 "" 1 0 with
    m_arrayWatches := [elementWatch "a", elementWatch "b", elementWatch "c"] }

/-- A global entry at index 1 and an entry of the script "#debug" at index 1. -/
def globalThenDebug : List WatchEntry :=
  [globalInt 1, scriptInt "#debug" 6 1 ""]

/-- A store with no entries for version "1.57" and one global entry for "1.58". -/
def twoVersionStore : Disk :=
  some (.json (.object [("1.57", []), ("1.58", [to_json (globalInt 7)])]))

/-! ## The add dialog: lemmas -/

theorem alreadyWatched_iff (watches : List WatchEntry) (index hash : Int) (type : WatchType) :
    alreadyWatched watches index hash type = true ↔
      ∃ w ∈ watches, w.m_addressIndex = index ∧ w.m_scriptHash = hash ∧ w.m_type = type := by
  simp [alreadyWatched, List.any_eq_true, and_assoc]

theorem alreadyWatched_eq_false_iff (watches : List WatchEntry) (index hash : Int)
    (type : WatchType) :
    alreadyWatched watches index hash type = false ↔
      ¬ ∃ w ∈ watches, w.m_addressIndex = index ∧ w.m_scriptHash = hash ∧ w.m_type = type := by
  rw [← alreadyWatched_iff]; simp

/-- The registry after the Add button: extended exactly when the address resolves and
the duplicate test finds nothing. -/
theorem addPressed_watches (h : Host) (isGlobal : Bool) (s : MemWatcherMod) :
    (addPressed h isGlobal s).m_watches =
      if addressResolves h isGlobal s = true ∧
          alreadyWatched s.m_watches s.m_inputAddressIndex (addScriptHash isGlobal s)
            s.m_inputType = false
      then s.m_watches ++ newWatches isGlobal s else s.m_watches := by
  unfold addPressed addScriptHash
  cases hres : addressResolves h isGlobal s <;>
    cases hdup : alreadyWatched s.m_watches s.m_inputAddressIndex
      (if isGlobal = true then 0 else s.m_scriptHash) s.m_inputType <;>
    simp [hres, hdup, newWatches]

/-- The flags after the Add button. -/
theorem addPressed_flags (h : Host) (isGlobal : Bool) (s : MemWatcherMod) :
    (addPressed h isGlobal s).m_inputsUpdated = false ∧
    (addPressed h isGlobal s).m_addressAvailable = addressResolves h isGlobal s ∧
    (addressResolves h isGlobal s = true →
      (addPressed h isGlobal s).m_variableAlreadyWatched =
        alreadyWatched s.m_watches s.m_inputAddressIndex (addScriptHash isGlobal s)
          s.m_inputType) := by
  unfold addPressed addScriptHash
  cases hres : addressResolves h isGlobal s <;>
    cases hdup : alreadyWatched s.m_watches s.m_inputAddressIndex
      (if isGlobal = true then 0 else s.m_scriptHash) s.m_inputType <;>
    simp [hres, hdup]

/-- The Add button leaves the inputs of the dialog as they are. -/
theorem addPressed_inputs (h : Host) (isGlobal : Bool) (s : MemWatcherMod) :
    (addPressed h isGlobal s).m_inputAddressIndex = s.m_inputAddressIndex ∧
    (addPressed h isGlobal s).m_indexRange = s.m_indexRange ∧
    (addPressed h isGlobal s).m_inputType = s.m_inputType ∧
    (addPressed h isGlobal s).m_scriptHash = s.m_scriptHash := by
  unfold addPressed
  cases hres : addressResolves h isGlobal s <;>
    cases hdup : alreadyWatched s.m_watches s.m_inputAddressIndex
      (if isGlobal = true then 0 else s.m_scriptHash) s.m_inputType <;>
    simp [hres, hdup]

theorem newWatches_length (isGlobal : Bool) (s : MemWatcherMod) :
    (newWatches isGlobal s).length = s.m_indexRange.toNat := by
  simp [newWatches]

theorem newWatches_getElem? (isGlobal : Bool) (s : MemWatcherMod) (i : Nat)
    (hi : i < s.m_indexRange.toNat) :
    (newWatches isGlobal s)[i]? = some
      (WatchEntry.new (s.m_inputAddressIndex + i) s.m_inputType s.m_inputArrayItemType
        (if isGlobal then "Global" else s.m_scriptName)
        (if isGlobal then 0 else s.m_scriptHash)
        s.m_watchInfo s.m_inputItemSizeQWORD s.m_inputIndexInItem) := by
  cases isGlobal <;> simp [newWatches, List.getElem?_map, List.getElem?_range hi]

theorem mem_newWatches (isGlobal : Bool) (s : MemWatcherMod) (e : WatchEntry)
    (he : e ∈ newWatches isGlobal s) :
    ∃ i : Nat, i < s.m_indexRange.toNat ∧ e =
      WatchEntry.new (s.m_inputAddressIndex + i) s.m_inputType s.m_inputArrayItemType
        (if isGlobal then "Global" else s.m_scriptName)
        (if isGlobal then 0 else s.m_scriptHash)
        s.m_watchInfo s.m_inputItemSizeQWORD s.m_inputIndexInItem := by
  simp only [newWatches, List.mem_map, List.mem_range] at he
  obtain ⟨i, hi, rfl⟩ := he
  exact ⟨i, hi, by cases isGlobal <;> simp⟩

/-! ## The add dialog: results -/

/-- C5: a successful add appends exactly `count` entries.  When the range size is at
least 1, the target address resolves and no entry carries the tuple
(input index, script hash, input type), the registry after the Add button is the old
registry followed by the `count = m_indexRange` new entries, whose address indexes are
index, index+1, ..., index+count-1 in this order and whose type is the input type; the
scroll-to-bottom flag is set; for a global add every new entry has script hash 0 and
script name "Global". -/
theorem add_success_appends (h : Host) (isGlobal : Bool) (s : MemWatcherMod)
    (hcount : 1 ≤ s.m_indexRange)
    (hres : addressResolves h isGlobal s = true)
    (hnew : ¬ ∃ w ∈ s.m_watches, w.m_addressIndex = s.m_inputAddressIndex ∧
      w.m_scriptHash = addScriptHash isGlobal s ∧ w.m_type = s.m_inputType) :
    (addPressed h isGlobal s).m_watches = s.m_watches ++ newWatches isGlobal s ∧
    ((newWatches isGlobal s).length : Int) = s.m_indexRange ∧
    (∀ i : Nat, (i : Int) < s.m_indexRange →
      ∃ e, (newWatches isGlobal s)[i]? = some e ∧
        e.m_addressIndex = s.m_inputAddressIndex + i ∧ e.m_type = s.m_inputType) ∧
    (addPressed h isGlobal s).m_autoScrollDown = true ∧
    (isGlobal = true →
      ∀ e ∈ newWatches isGlobal s, e.m_scriptHash = 0 ∧ e.m_scriptName = "Global") := by
  have hdup := (alreadyWatched_eq_false_iff _ _ _ _).mpr hnew
  refine ⟨?_, ?_, ?_, ?_, ?_⟩
  · rw [addPressed_watches, if_pos ⟨hres, hdup⟩]
  · rw [newWatches_length]; omega
  · intro i hi
    have hi' : i < s.m_indexRange.toNat := by omega
    exact ⟨_, newWatches_getElem? isGlobal s i hi', rfl, rfl⟩
  · unfold addPressed
    unfold addScriptHash at hdup
    simp [hres, hdup]
  · intro hg e he
    obtain ⟨i, _, rfl⟩ := mem_newWatches isGlobal s e he
    simp [hg, WatchEntry.new]

/-- C5, at the spec's scenario: adding global index 100 of type Int with range size 1
to the empty registry gives one entry, with script hash 0 and name "Global". -/
theorem add_success_appends_witness :
    (addPressed Host.allAvailable true (dialogWith [] 100 1)).m_watches = [globalInt 100] ∧
    (globalInt 100).m_scriptHash = 0 ∧ (globalInt 100).m_scriptName = "Global" ∧
    (addPressed Host.allAvailable true (dialogWith [] 100 1)).m_autoScrollDown = true := by
  have key := add_success_appends Host.allAvailable true (dialogWith [] 100 1)
    (by decide) (by decide) (by decide)
  refine ⟨?_, by decide, by decide, key.2.2.2.1⟩
  rw [key.1]; decide

/-- What a rejected add does keep.  If the target address does not resolve, or an entry
with the tuple (input index, script hash, input type) is in the registry, the registry
after the Add button is the registry before it; the address message is among the
messages drawn when the address does not resolve, and the already-watched message is
the one drawn when the address resolves and the tuple is present.  After an add whose
address resolved (range size at least 1), the same add again leaves the registry, hence
its size, as it is. -/
theorem add_rejected_unchanged (h : Host) (isGlobal : Bool) (s : MemWatcherMod) :
    ((addressResolves h isGlobal s = false ∨
        ∃ w ∈ s.m_watches, w.m_addressIndex = s.m_inputAddressIndex ∧
          w.m_scriptHash = addScriptHash isGlobal s ∧ w.m_type = s.m_inputType) →
      (addPressed h isGlobal s).m_watches = s.m_watches ∧
      (addressResolves h isGlobal s = false →
        "Cannot get memory address" ∈ errorMessages (addPressed h isGlobal s)) ∧
      (addressResolves h isGlobal s = true →
        errorMessages (addPressed h isGlobal s) =
          ["This variable is already on the watch list"])) ∧
    (addressResolves h isGlobal s = true → 1 ≤ s.m_indexRange → ∀ h2 : Host,
      (addPressed h2 isGlobal (addPressed h isGlobal s)).m_watches =
        (addPressed h isGlobal s).m_watches ∧
      (addPressed h2 isGlobal (addPressed h isGlobal s)).m_watches.length =
        (addPressed h isGlobal s).m_watches.length ∧
      (addressResolves h2 isGlobal (addPressed h isGlobal s) = true →
        errorMessages (addPressed h2 isGlobal (addPressed h isGlobal s)) =
          ["This variable is already on the watch list"])) := by
  have rejected : ∀ (h : Host) (s : MemWatcherMod),
      (addressResolves h isGlobal s = false ∨
        ∃ w ∈ s.m_watches, w.m_addressIndex = s.m_inputAddressIndex ∧
          w.m_scriptHash = addScriptHash isGlobal s ∧ w.m_type = s.m_inputType) →
      (addPressed h isGlobal s).m_watches = s.m_watches ∧
      (addressResolves h isGlobal s = false →
        "Cannot get memory address" ∈ errorMessages (addPressed h isGlobal s)) ∧
      (addressResolves h isGlobal s = true →
        errorMessages (addPressed h isGlobal s) =
          ["This variable is already on the watch list"]) := by
    intro h s hrej
    obtain ⟨hupd, havail, hwatched⟩ := addPressed_flags h isGlobal s
    refine ⟨?_, ?_, ?_⟩
    · rw [addPressed_watches]
      rcases hrej with hres | hdup
      · simp [hres]
      · simp [(alreadyWatched_iff _ _ _ _).mpr hdup]
    · intro hres
      simp [errorMessages, hupd, havail, hres]
    · intro hres
      rcases hrej with hno | hdup
      · simp [hres] at hno
      · simp [errorMessages, hupd, havail, hres, hwatched hres,
          (alreadyWatched_iff _ _ _ _).mpr hdup]
  refine ⟨rejected h s, ?_⟩
  intro hres hcount h2
  obtain ⟨hidx, hrange, htype, hhash⟩ := addPressed_inputs h isGlobal s
  have hpresent : ∃ w ∈ (addPressed h isGlobal s).m_watches,
      w.m_addressIndex = (addPressed h isGlobal s).m_inputAddressIndex ∧
      w.m_scriptHash = addScriptHash isGlobal (addPressed h isGlobal s) ∧
      w.m_type = (addPressed h isGlobal s).m_inputType := by
    have hash_eq : addScriptHash isGlobal (addPressed h isGlobal s) = addScriptHash isGlobal s := by
      simp [addScriptHash, hhash]
    rw [hidx, htype, hash_eq, addPressed_watches]
    by_cases hdup : alreadyWatched s.m_watches s.m_inputAddressIndex (addScriptHash isGlobal s)
        s.m_inputType = true
    · obtain ⟨w, hw, hw'⟩ := (alreadyWatched_iff _ _ _ _).mp hdup
      refine ⟨w, ?_, hw'⟩
      simp [hdup, hw]
    · have hdup' : alreadyWatched s.m_watches s.m_inputAddressIndex (addScriptHash isGlobal s)
          s.m_inputType = false := by simpa using hdup
      rw [if_pos ⟨hres, hdup'⟩]
      have h0 : 0 < s.m_indexRange.toNat := by omega
      have hmem := List.getElem?_mem (newWatches_getElem? isGlobal s 0 h0)
      refine ⟨_, List.mem_append_right _ hmem, ?_⟩
      cases isGlobal <;> simp [WatchEntry.new, addScriptHash]
  have r := rejected h2 (addPressed h isGlobal s) (Or.inr hpresent)
  exact ⟨r.1, by rw [r.1], r.2.2⟩

/-- C4, the code at the failing run.  Global addresses below 6 resolve.  Global
index 5 is added, added again (rejected as already watched), then the index is set to
6 and Add is pressed: the address does not resolve, index 6 is not in the registry, the
registry is unchanged, and both messages are drawn, because
`m_variableAlreadyWatched` is reset only when the address resolves. -/
theorem stale_already_watched_message :
    (runFrames (Host.globalsBelow 6) true
        [{ index := some 5 }, { add := true }, { add := true }, { index := some 6 }]
        MemWatcherMod.init).m_watches = [globalInt 5] ∧
    addressResolves (Host.globalsBelow 6) true
      (runFrames (Host.globalsBelow 6) true
        [{ index := some 5 }, { add := true }, { add := true }, { index := some 6 }]
        MemWatcherMod.init) = false ∧
    alreadyWatched [globalInt 5] 6 0 .kInt = false ∧
    (runFrames (Host.globalsBelow 6) true
        [{ index := some 5 }, { add := true }, { add := true }, { index := some 6 },
          { add := true }]
        MemWatcherMod.init).m_watches = [globalInt 5] ∧
    errorMessages (runFrames (Host.globalsBelow 6) true
        [{ index := some 5 }, { add := true }, { add := true }, { index := some 6 },
          { add := true }]
        MemWatcherMod.init) =
      ["Cannot get memory address", "This variable is already on the watch list"] := by
  decide

/-- Where no address resolves and global index 5 is watched already, adding index 5
leaves the registry as it is and draws the address message only. -/
theorem unresolved_duplicate_draws_address_message :
    (addPressed Host.noneAvailable true (dialogWith [globalInt 5] 5 1)).m_watches =
      [globalInt 5] ∧
    errorMessages (addPressed Host.noneAvailable true (dialogWith [globalInt 5] 5 1)) =
      ["Cannot get memory address"] := by
  decide

/-- C10, counterexample: the input index 999999 is within 0..999999 and the range
size 2 within 1..100 (both as the dialog clips them), the address resolves and the
registry is empty; the add appends entries with address indexes 999999 and 1000000, and
the second is outside 0..999999. -/
theorem add_index_exceeds_999999 :
    (runFrames Host.allAvailable true [{ index := some 999999 }, { range := some 2 }]
        MemWatcherMod.init).m_inputAddressIndex = 999999 ∧
    (runFrames Host.allAvailable true [{ index := some 999999 }, { range := some 2 }]
        MemWatcherMod.init).m_indexRange = 2 ∧
    (runFrames Host.allAvailable true
        [{ index := some 999999 }, { range := some 2 }, { add := true }]
        MemWatcherMod.init).m_watches = [globalInt 999999, globalInt 1000000] ∧
    ¬ ∀ e ∈ (addPressed Host.allAvailable true (dialogWith [] 999999 2)).m_watches,
        0 ≤ e.m_addressIndex ∧ e.m_addressIndex ≤ 999999 := by
  decide

/-- C10, amended: for an input index within 0..999999 and a range size within 1..100,
a successful add appends entries whose address indexes lie within
index .. index + range - 1, hence within 0..1000098; they lie within 0..999999
when index + range - 1 does, in particular for range size 1. -/
theorem add_entries_index_bounds (h : Host) (isGlobal : Bool) (s : MemWatcherMod)
    (hidx : 0 ≤ s.m_inputAddressIndex ∧ s.m_inputAddressIndex ≤ 999999)
    (hrange : 1 ≤ s.m_indexRange ∧ s.m_indexRange ≤ 100)
    (hres : addressResolves h isGlobal s = true)
    (hnew : ¬ ∃ w ∈ s.m_watches, w.m_addressIndex = s.m_inputAddressIndex ∧
      w.m_scriptHash = addScriptHash isGlobal s ∧ w.m_type = s.m_inputType) :
    (addPressed h isGlobal s).m_watches = s.m_watches ++ newWatches isGlobal s ∧
    (∀ e ∈ newWatches isGlobal s,
      s.m_inputAddressIndex ≤ e.m_addressIndex ∧
      e.m_addressIndex ≤ s.m_inputAddressIndex + s.m_indexRange - 1 ∧
      0 ≤ e.m_addressIndex ∧ e.m_addressIndex ≤ 1000098) ∧
    (s.m_inputAddressIndex + s.m_indexRange - 1 ≤ 999999 →
      ∀ e ∈ newWatches isGlobal s, 0 ≤ e.m_addressIndex ∧ e.m_addressIndex ≤ 999999) := by
  have hdup := (alreadyWatched_eq_false_iff _ _ _ _).mpr hnew
  have bounds : ∀ e ∈ newWatches isGlobal s,
      s.m_inputAddressIndex ≤ e.m_addressIndex ∧
      e.m_addressIndex ≤ s.m_inputAddressIndex + s.m_indexRange - 1 := by
    intro e he
    obtain ⟨i, hi, rfl⟩ := mem_newWatches isGlobal s e he
    simp only [WatchEntry.new]
    omega
  refine ⟨?_, ?_, ?_⟩
  · rw [addPressed_watches, if_pos ⟨hres, hdup⟩]
  · intro e he
    have hb := bounds e he
    omega
  · intro hfit e he
    have hb := bounds e he
    omega

/-- C10, amended, at concrete inputs: index 999999 with range size 1 appends the one
entry 999999; index 10 with range size 3 appends entries within 10..12. -/
theorem add_entries_index_bounds_witness :
    (addPressed Host.allAvailable true (dialogWith [] 999999 1)).m_watches =
      [] ++ newWatches true (dialogWith [] 999999 1) ∧
    (∀ e ∈ newWatches true (dialogWith [] 999999 1),
      0 ≤ e.m_addressIndex ∧ e.m_addressIndex ≤ 999999) ∧
    (∀ e ∈ newWatches true (dialogWith [] 10 3),
      (10 : Int) ≤ e.m_addressIndex ∧ e.m_addressIndex ≤ 10 + 3 - 1 ∧
      0 ≤ e.m_addressIndex ∧ e.m_addressIndex ≤ 1000098) := by
  have one := add_entries_index_bounds Host.allAvailable true (dialogWith [] 999999 1)
    (by decide) (by decide) (by decide) (by decide)
  have three := add_entries_index_bounds Host.allAvailable true (dialogWith [] 10 3)
    (by decide) (by decide) (by decide) (by decide)
  exact ⟨one.1, one.2.2 (by decide), three.2.1⟩

/-- C3, the code at the failing run: after adding global index 5 (range size 1) and
then global index 4 with range size 2, both of type Int, the registry holds the
tuples (5, 0, Int), (4, 0, Int), (5, 0, Int): the duplicate test looked at index 4
only, and two entries share a tuple. -/
theorem range_add_breaks_uniqueness :
    (runFrames Host.allAvailable true
        [{ index := some 5 }, { add := true }, { index := some 4 }, { range := some 2 },
          { add := true }]
        MemWatcherMod.init).m_watches = [globalInt 5, globalInt 4, globalInt 5] ∧
    ¬ uniqueTuples [globalInt 5, globalInt 4, globalInt 5] := by
  decide

theorem pairwise_of_length_le_one {α : Type} (R : α → α → Prop) :
    ∀ l : List α, l.length ≤ 1 → l.Pairwise R
  | [], _ => List.Pairwise.nil
  | [x], _ => List.pairwise_singleton R x
  | _ :: _ :: _, hl => by simp at hl

/-- With range size 1 the duplicate test does keep the tuples apart: the Add button
preserves uniqueness. -/
theorem addPressed_unique_of_range_one (h : Host) (isGlobal : Bool) (s : MemWatcherMod)
    (hrange : s.m_indexRange ≤ 1) (huniq : uniqueTuples s.m_watches) :
    uniqueTuples (addPressed h isGlobal s).m_watches := by
  rw [addPressed_watches]
  by_cases hcond : addressResolves h isGlobal s = true ∧
      alreadyWatched s.m_watches s.m_inputAddressIndex (addScriptHash isGlobal s)
        s.m_inputType = false
  · rw [if_pos hcond]
    have hnone := (alreadyWatched_eq_false_iff _ _ _ _).mp hcond.2
    have hlen : (newWatches isGlobal s).length ≤ 1 := by
      rw [newWatches_length]; omega
    have hcross : ∀ a ∈ s.m_watches, ∀ b ∈ newWatches isGlobal s, ¬ sameTuple a b := by
      intro a ha b hb hsame
      obtain ⟨i, hi, rfl⟩ := mem_newWatches isGlobal s b hb
      have hi0 : i = 0 := by omega
      subst hi0
      apply hnone
      obtain ⟨h1, h2, h3⟩ := hsame
      refine ⟨a, ha, ?_, ?_, h3⟩
      · rw [h1]; simp [WatchEntry.new]
      · rw [h2]; cases isGlobal <;> simp [WatchEntry.new, addScriptHash]
    exact List.pairwise_append.mpr ⟨huniq, pairwise_of_length_le_one _ _ hlen, hcross⟩
  · rw [if_neg hcond]
    exact huniq

/-! ## The entry popup -/

theorem updateSubWatchesFrom_length (parent : WatchEntry) :
    ∀ (l : List WatchItem) (start : Nat), (updateSubWatchesFrom parent start l).length = l.length
  | [], _ => rfl
  | _ :: rest, start => by
    simp [updateSubWatchesFrom, updateSubWatchesFrom_length parent rest (start + 1)]

theorem wrapInt32_of_fits (x : Int) (hlo : -2147483648 ≤ x) (hhi : x ≤ 2147483647) :
    wrapInt32 x = x := by
  unfold wrapInt32; omega

/-- Reducing after every operation gives the exact sum reduced once. -/
theorem childIndex_eq (parent : WatchEntry) (index : Nat) :
    childIndex parent index = wrapInt32 (parent.m_addressIndex + 1 +
      (index : Int) * parent.m_itemSizeQWORD + parent.m_arrayIndexInItem) := by
  unfold childIndex wrapInt32
  generalize (index : Int) * parent.m_itemSizeQWORD = product
  omega

theorem updateSubWatchesFrom_getElem? (parent : WatchEntry) :
    ∀ (l : List WatchItem) (start i : Nat) (child : WatchItem), l[i]? = some child →
      (updateSubWatchesFrom parent start l)[i]? = some { child with
        m_addressIndex := childIndex parent (start + i)
        m_type := parent.m_arrayItemType }
  | [], _, i, child, hget => by simp at hget
  | w :: rest, start, 0, child, hget => by
    simp only [List.getElem?_cons_zero, Option.some.injEq] at hget
    subst hget
    simp [updateSubWatchesFrom]
  | w :: rest, start, i + 1, child, hget => by
    simp only [List.getElem?_cons_succ] at hget
    have ih := updateSubWatchesFrom_getElem? parent rest (start + 1) i child hget
    simp only [updateSubWatchesFrom, List.getElem?_cons_succ, ih]
    have hidx : start + 1 + i = start + (i + 1) := by omega
    rw [hidx]

/-- What the block "update sub watches" does to an entry: the entry's own members stay,
the number of element watches stays, and the element watch at position `i` is the old
one at position `i` with address index and type derived from the entry. -/
theorem updateSubWatches_spec (e : WatchEntry) :
    (updateSubWatches e).toWatchItem = e.toWatchItem ∧
    (updateSubWatches e).m_arrayWatches.length = e.m_arrayWatches.length ∧
    ∀ (i : Nat) (child : WatchItem), e.m_arrayWatches[i]? = some child →
      (updateSubWatches e).m_arrayWatches[i]? = some { child with
        m_addressIndex := wrapInt32 (e.m_addressIndex + 1 + (i : Int) * e.m_itemSizeQWORD +
          e.m_arrayIndexInItem)
        m_type := e.m_arrayItemType } := by
  refine ⟨rfl, updateSubWatchesFrom_length e _ 0, ?_⟩
  intro i child hget
  have hspec := updateSubWatchesFrom_getElem? e e.m_arrayWatches 0 i child hget
  rw [childIndex_eq] at hspec
  simpa [updateSubWatches] using hspec

/-- The popup frame on an Array entry in which one of the three widgets reported a
change: the entry it leaves, before the element watches are updated, and the update. -/
theorem editArrayParams_eq (ui : ArrayParamsUi) (e : WatchEntry) (harr : e.m_type = .kArray)
    (hedit : ui.indexInItem ≠ none ∨ ui.arrayItemType ≠ none ∨ ui.itemSizeQWORD ≠ none) :
    ∃ edited : WatchEntry, editArrayParams ui e = updateSubWatches edited ∧
      edited.m_addressIndex = e.m_addressIndex ∧ edited.m_arrayWatches = e.m_arrayWatches ∧
      (∀ v, ui.indexInItem = some v → edited.m_arrayIndexInItem = v) ∧
      (∀ t, ui.indexInItem = none → ui.arrayItemType = some t → edited.m_arrayItemType = t) ∧
      (∀ v, ui.indexInItem = none → ui.arrayItemType = none → ui.itemSizeQWORD = some v →
        edited.m_itemSizeQWORD = v) := by
  obtain ⟨offset, type, stride⟩ := ui
  cases offset with
  | some v =>
    refine ⟨{ e with m_arrayIndexInItem := v }, ?_, rfl, rfl, by simp, by simp, by simp⟩
    unfold editArrayParams; rw [if_pos harr]
  | none =>
    cases type with
    | some t =>
      refine ⟨{ e with m_arrayItemType := t }, ?_, rfl, rfl, by simp, by simp, by simp⟩
      unfold editArrayParams; rw [if_pos harr]
    | none =>
      cases stride with
      | some v =>
        refine ⟨{ e with m_itemSizeQWORD := v }, ?_, rfl, rfl, by simp, by simp, by simp⟩
        unfold editArrayParams; rw [if_pos harr]
      | none => simp at hedit

/-- C8, counterexample: the Array entry at index 50 with three element watches, stride
edited to 2000000000 (a value the unclipped `int` widget accepts).  The element watches
get the address indexes 51, 2000000051 and -294967245; for position 2 the formula
`50 + 1 + 2 * 2000000000 + 0` is 4000000051, which no `int` holds. -/
theorem child_index_wraps_at_large_stride :
    arrayAt50.m_type = .kArray ∧
    (editArrayParams { itemSizeQWORD := some 2000000000 } arrayAt50).m_itemSizeQWORD =
      2000000000 ∧
    (editArrayParams { itemSizeQWORD := some 2000000000 } arrayAt50).m_arrayWatches.map
      (fun child => child.m_addressIndex) = [51, 2000000051, -294967245] ∧
    (-294967245 : Int) ≠ 50 + 1 + 2 * 2000000000 + 0 := by
  decide

/-- C8, amended: child index re-derivation.  For an Array-typed entry with any element
watches, after a frame of the popup in which the offset, the element type or the stride
was edited, the number of element watches is unchanged, and the one at position `i` is
the former one at position `i` with type `parent.arrayItemType` and with address index
`parent.addressIndex + 1 + i * stride + offset` reduced to a 32-bit `int`, which is
that value itself whenever it lies within -2147483648..2147483647; parent, stride and
offset are those of the entry as edited, its own address index is unchanged and the
edited member holds the value entered. -/
theorem editArrayParams_rederives (ui : ArrayParamsUi) (e : WatchEntry)
    (harr : e.m_type = .kArray)
    (hedit : ui.indexInItem ≠ none ∨ ui.arrayItemType ≠ none ∨ ui.itemSizeQWORD ≠ none) :
    (editArrayParams ui e).m_addressIndex = e.m_addressIndex ∧
    (editArrayParams ui e).m_arrayWatches.length = e.m_arrayWatches.length ∧
    (∀ (i : Nat) (child : WatchItem), e.m_arrayWatches[i]? = some child →
      (editArrayParams ui e).m_arrayWatches[i]? = some { child with
        m_addressIndex := wrapInt32 ((editArrayParams ui e).m_addressIndex + 1 +
          (i : Int) * (editArrayParams ui e).m_itemSizeQWORD +
          (editArrayParams ui e).m_arrayIndexInItem)
        m_type := (editArrayParams ui e).m_arrayItemType }) ∧
    (∀ (i : Nat) (child : WatchItem), e.m_arrayWatches[i]? = some child →
      -2147483648 ≤ (editArrayParams ui e).m_addressIndex + 1 +
        (i : Int) * (editArrayParams ui e).m_itemSizeQWORD +
        (editArrayParams ui e).m_arrayIndexInItem →
      (editArrayParams ui e).m_addressIndex + 1 +
        (i : Int) * (editArrayParams ui e).m_itemSizeQWORD +
        (editArrayParams ui e).m_arrayIndexInItem ≤ 2147483647 →
      (editArrayParams ui e).m_arrayWatches[i]? = some { child with
        m_addressIndex := (editArrayParams ui e).m_addressIndex + 1 +
          (i : Int) * (editArrayParams ui e).m_itemSizeQWORD +
          (editArrayParams ui e).m_arrayIndexInItem
        m_type := (editArrayParams ui e).m_arrayItemType }) ∧
    (∀ v, ui.indexInItem = some v → (editArrayParams ui e).m_arrayIndexInItem = v) ∧
    (∀ t, ui.indexInItem = none → ui.arrayItemType = some t →
      (editArrayParams ui e).m_arrayItemType = t) ∧
    (∀ v, ui.indexInItem = none → ui.arrayItemType = none → ui.itemSizeQWORD = some v →
      (editArrayParams ui e).m_itemSizeQWORD = v) := by
  obtain ⟨edited, hE, haddr, hchildren, hoff, hty, hstride⟩ := editArrayParams_eq ui e harr hedit
  have hs := updateSubWatches_spec edited
  rw [hE]
  rw [hchildren] at hs
  refine ⟨haddr, hs.2.1, hs.2.2, ?_, hoff, hty, hstride⟩
  intro i child hget hlo hhi
  have hwrap := hs.2.2 i child hget
  have hlo' : -2147483648 ≤ edited.m_addressIndex + 1 + (i : Int) * edited.m_itemSizeQWORD +
      edited.m_arrayIndexInItem := hlo
  have hhi' : edited.m_addressIndex + 1 + (i : Int) * edited.m_itemSizeQWORD +
      edited.m_arrayIndexInItem ≤ 2147483647 := hhi
  rw [wrapInt32_of_fits _ hlo' hhi'] at hwrap
  exact hwrap

/-- C8, amended, at the spec's scenario: parent index 50, stride set to 2, offset 0,
three element watches: they get the address indexes 51, 53, 55 and the element type
Float, in the same order. -/
theorem editArrayParams_rederives_witness :
    arrayAt50.m_type = .kArray ∧
    (editArrayParams { itemSizeQWORD := some 2 } arrayAt50).m_arrayWatches.length = 3 ∧
    (editArrayParams { itemSizeQWORD := some 2 } arrayAt50).m_arrayWatches[2]? =
      some { elementWatch "c" with m_addressIndex := 55, m_type := .kFloat } ∧
    (editArrayParams { itemSizeQWORD := some 2 } arrayAt50).m_arrayWatches =
      [{ elementWatch "a" with m_addressIndex := 51, m_type := .kFloat },
       { elementWatch "b" with m_addressIndex := 53, m_type := .kFloat },
       { elementWatch "c" with m_addressIndex := 55, m_type := .kFloat }] := by
  have key := editArrayParams_rederives { itemSizeQWORD := some 2 } arrayAt50 (by decide)
    (by decide)
  exact ⟨by decide, key.2.1, key.2.2.2.1 2 (elementWatch "c") (by decide) (by decide)
    (by decide), by decide⟩

/-- The left shift does produce `(2 * v) mod 2^32` in the low four bytes. -/
theorem shiftLeft_low32 (slot : Nat) :
    low32 (bitfieldShiftButtons true false slot) = (2 * low32 slot) % 2 ^ 32 := by
  simp only [bitfieldShiftButtons, low32, Nat.shiftLeft_eq, if_true, Bool.false_eq_true,
    if_false]
  omega

/-- When the other four bytes are zero, the right shift stores `v / 2` and leaves them
zero. -/
theorem shiftRight_of_high32_zero (slot : Nat) (hhigh : high32 slot = 0) :
    low32 (bitfieldShiftButtons false true slot) = low32 slot / 2 ∧
    high32 (bitfieldShiftButtons false true slot) = 0 := by
  simp only [bitfieldShiftButtons, low32, high32, Nat.shiftRight_eq_div_pow, if_true,
    Bool.false_eq_true, if_false] at *
  omega

/-- C9, the code at the failing inputs.  The slot `2^32` has the 4-byte value 0 and
the other four bytes 1: shift-right makes the 4-byte value `2^31` (not `0 / 2`) and the
other bytes 0.  The slot `2^31` has the 4-byte value `2^31` and the other four bytes 0:
shift-left makes the 4-byte value 0 and the other bytes 1. -/
theorem bitfield_shift_crosses_words :
    (low32 (2 ^ 32) = 0 ∧ high32 (2 ^ 32) = 1 ∧
      low32 (bitfieldShiftButtons false true (2 ^ 32)) = 2 ^ 31 ∧
      high32 (bitfieldShiftButtons false true (2 ^ 32)) = 0) ∧
    (low32 (2 ^ 31) = 2 ^ 31 ∧ high32 (2 ^ 31) = 0 ∧
      low32 (bitfieldShiftButtons true false (2 ^ 31)) = 0 ∧
      high32 (bitfieldShiftButtons true false (2 ^ 31)) = 1) := by
  decide

/-! ## Sorting -/

/-- `CompareWatch` is the strict lexicographic order of the sort keys. -/
theorem CompareWatch_iff (a b : WatchEntry) :
    CompareWatch a b = true ↔ orderKey a < orderKey b := by
  unfold CompareWatch orderKey sortName
  simp only [Prod.Lex.lt_iff]
  generalize (if a.m_scriptName = "Global" then "000Global" else a.m_scriptName) = an
  generalize (if b.m_scriptName = "Global" then "000Global" else b.m_scriptName) = bn
  have hinj : an.toList = bn.toList ↔ an = bn := String.toList_inj
  by_cases hlt : an.toList < bn.toList
  · rw [if_pos hlt]
    exact iff_of_true rfl (Or.inl hlt)
  · rw [if_neg hlt]
    by_cases heq : an = bn
    · rw [if_pos heq]
      have hl : an.toList = bn.toList := hinj.mpr heq
      by_cases hidx : a.m_addressIndex < b.m_addressIndex
      · rw [if_pos hidx]
        exact iff_of_true rfl (Or.inr ⟨hl, Or.inl hidx⟩)
      · rw [if_neg hidx]
        by_cases hidx' : a.m_addressIndex = b.m_addressIndex
        · rw [if_pos hidx']
          by_cases hty : a.m_type.toNat < b.m_type.toNat
          · rw [if_pos hty]
            exact iff_of_true rfl (Or.inr ⟨hl, Or.inr ⟨hidx', hty⟩⟩)
          · rw [if_neg hty]
            refine iff_of_false (by simp) ?_
            rintro (h | ⟨_, h | ⟨_, h⟩⟩)
            · exact hlt h
            · exact hidx h
            · exact hty h
        · rw [if_neg hidx']
          refine iff_of_false (by simp) ?_
          rintro (h | ⟨_, h | ⟨h, _⟩⟩)
          · exact hlt h
          · exact hidx h
          · exact hidx' h
    · rw [if_neg heq]
      refine iff_of_false (by simp) ?_
      rintro (h | ⟨h, _⟩)
      · exact hlt h
      · exact heq (hinj.mp h)

theorem CompareWatch_eq_false_iff (a b : WatchEntry) :
    CompareWatch a b = false ↔ orderKey b ≤ orderKey a := by
  rw [← not_lt, ← CompareWatch_iff]; simp

theorem insertSorted_perm {α : Type} (comp : α → α → Bool) (x : α) :
    ∀ l : List α, (insertSorted comp x l).Perm (x :: l)
  | [] => List.Perm.refl _
  | y :: ys => by
    unfold insertSorted
    by_cases hxy : comp x y = true
    · rw [if_pos hxy]
    · rw [if_neg hxy]
      exact ((insertSorted_perm comp x ys).cons y).trans (List.Perm.swap x y ys)

theorem foldl_insertSorted_perm {α : Type} (comp : α → α → Bool) :
    ∀ (l sorted : List α),
      (l.foldl (fun sorted x => insertSorted comp x sorted) sorted).Perm (sorted ++ l)
  | [], sorted => by simp
  | x :: xs, sorted => by
    simp only [List.foldl_cons]
    refine (foldl_insertSorted_perm comp xs (insertSorted comp x sorted)).trans ?_
    refine ((insertSorted_perm comp x sorted).append_right xs).trans ?_
    exact List.perm_middle.symm

theorem insertionSort_perm {α : Type} (comp : α → α → Bool) (l : List α) :
    (insertionSort comp l).Perm l := by
  simpa [insertionSort] using foldl_insertSorted_perm comp l []

theorem insertSorted_sorted (x : WatchEntry) :
    ∀ l : List WatchEntry, SortedBy CompareWatch l →
      SortedBy CompareWatch (insertSorted CompareWatch x l)
  | [], _ => List.pairwise_singleton _ x
  | y :: ys, hs => by
    have hs' := List.pairwise_cons.mp hs
    unfold insertSorted
    by_cases hxy : CompareWatch x y = true
    · rw [if_pos hxy]
      refine List.pairwise_cons.mpr ⟨?_, hs⟩
      intro z hz
      have hlt : orderKey x < orderKey y := (CompareWatch_iff x y).mp hxy
      rw [CompareWatch_eq_false_iff]
      rcases List.mem_cons.mp hz with rfl | hz'
      · exact le_of_lt hlt
      · exact le_trans (le_of_lt hlt) ((CompareWatch_eq_false_iff z y).mp (hs'.1 z hz'))
    · rw [if_neg hxy]
      refine List.pairwise_cons.mpr ⟨?_, insertSorted_sorted x ys hs'.2⟩
      intro z hz
      rcases List.mem_cons.mp ((insertSorted_perm CompareWatch x ys).mem_iff.mp hz) with rfl | hz'
      · simpa using hxy
      · exact hs'.1 z hz'

theorem foldl_insertSorted_sorted :
    ∀ (l sorted : List WatchEntry), SortedBy CompareWatch sorted →
      SortedBy CompareWatch (l.foldl (fun sorted x => insertSorted CompareWatch x sorted) sorted)
  | [], _, hs => hs
  | x :: xs, sorted, hs => by
    simp only [List.foldl_cons]
    exact foldl_insertSorted_sorted xs _ (insertSorted_sorted x sorted hs)

/-- The contract of `std::sort` with `CompareWatch` has a result on every registry:
the stable insertion sort delivers one. -/
theorem SortWatches_insertionSort (l : List WatchEntry) :
    SortWatches l (insertionSort CompareWatch l) :=
  ⟨insertionSort_perm CompareWatch l, foldl_insertSorted_sorted l [] List.Pairwise.nil⟩

/-- C6, the code at the failing input.  Adding global index 1 and then index 1 of the
running script "#debug" gives the registry `globalThenDebug`.  "#debug" is lexically
below "000Global", so `CompareWatch` puts the script entry before the global one: the
order with the script entry first is a result of `std::sort`, the order with the global
entry first is not, and insertion sort returns the script entry first. -/
theorem global_sorted_after_low_name :
    (runFrames Host.allAvailable false
        [{ scriptName := some "#debug" }, { index := some 1 }, { add := true }]
        (runFrames Host.allAvailable true [{ index := some 1 }, { add := true }]
          MemWatcherMod.init)).m_watches = globalThenDebug ∧
    isGlobalEntry (globalInt 1) ∧ ¬ isGlobalEntry (scriptInt "#debug" 6 1 "") ∧
    CompareWatch (scriptInt "#debug" 6 1 "") (globalInt 1) = true ∧
    SortWatches globalThenDebug [scriptInt "#debug" 6 1 "", globalInt 1] ∧
    ¬ SortWatches globalThenDebug [globalInt 1, scriptInt "#debug" 6 1 ""] ∧
    insertionSort CompareWatch globalThenDebug = [scriptInt "#debug" 6 1 "", globalInt 1] ∧
    ¬ globalsFirst [scriptInt "#debug" 6 1 "", globalInt 1] := by
  decide

/-- Where every other entry has a script name lexically above "000Global", a sorted
registry does have its global entries first. -/
theorem globalsFirst_of_sorted (l : List WatchEntry) (hs : SortedBy CompareWatch l)
    (hnames : ∀ e ∈ l, ¬ isGlobalEntry e →
      e.m_scriptName ≠ "Global" ∧ "000Global".toList < e.m_scriptName.toList) :
    globalsFirst l := by
  unfold globalsFirst
  unfold SortedBy at hs
  refine hs.imp_of_mem ?_
  intro x y hx _ hcmp hxy
  obtain ⟨hname, hlow⟩ := hnames x hx hxy.1
  have hlt : orderKey y < orderKey x := by
    unfold orderKey sortName
    rw [if_pos hxy.2.1, if_neg hname, Prod.Lex.lt_iff]
    exact Or.inl hlow
  rw [(CompareWatch_iff y x).mpr hlt] at hcmp
  exact Bool.noConfusion hcmp

theorem toRecord_toItem (r : ItemRecord) : r.toItem.toRecord = r := rfl

theorem to_json_from_json (r : WatchRecord) : to_json (from_json r) = r := by
  obtain ⟨item, children⟩ := r
  simp only [to_json, from_json, List.map_map]
  congr 1
  have hid : (WatchItem.toRecord ∘ ItemRecord.toItem) = id := funext toRecord_toItem
  rw [hid, List.map_id]

/-- With the persist option on, `SaveWatches` leaves a store that holds the entries of
the current version and nothing else, whatever the store was before: the output stream
has emptied the file before the input stream reads it. -/
theorem SaveWatches_of_saveGlobals (version : String) (s : MemWatcherMod) (d : Disk)
    (hsave : s.saveGlobals = true) :
    SaveWatches version s d =
      some (some (.json (.object [(version, s.m_watches.map to_json)]))) := by
  unfold SaveWatches
  rw [if_pos hsave]
  cases d <;> rfl

theorem LoadWatches_single (version : String) (s : MemWatcherMod)
    (records : List WatchRecord) :
    LoadWatches version s (some (.json (.object [(version, records)]))) =
      some ({ s with m_watches := records.map from_json },
        some (.json (.object [(version, records)]))) := by
  simp [LoadWatches, ifstreamOpen, ifstreamRead, Json.value, getMember]

/-- C2: save then load is a round trip.  For every version, every store (missing, empty,
unparseable, or holding any JSON value) and every registry, `SaveWatches` with the
persist option on returns a store from which `LoadWatches` for the same version, started
from any module state, returns a registry with the same number of entries, each equal
to the saved one at its position on the persisted members. -/
theorem save_then_load (version : String) (s s₀ : MemWatcherMod) (d : Disk)
    (hsave : s.saveGlobals = true) :
    ∃ (d₁ : Disk) (s₁ : MemWatcherMod) (d₂ : Disk),
      SaveWatches version s d = some d₁ ∧
      LoadWatches version s₀ d₁ = some (s₁, d₂) ∧
      s₁.m_watches.map to_json = s.m_watches.map to_json ∧
      s₁.m_watches = s.m_watches.map (fun e => from_json (to_json e)) ∧
      s₁.m_watches.length = s.m_watches.length := by
  refine ⟨_, _, _, SaveWatches_of_saveGlobals version s d hsave,
    LoadWatches_single version s₀ _, ?_, ?_, ?_⟩
  · simp only [List.map_map]
    exact List.map_congr_left (fun e _ => to_json_from_json (to_json e))
  · simp only [List.map_map]
    rfl
  · simp

/-- C2, at a concrete input: the registry holds global index 3, the store holds two
versions; saving for "1.57" and loading for "1.57" gives global index 3 back. -/
theorem save_then_load_witness :
    (dialogWith [globalInt 3] 0 1).saveGlobals = true ∧
    ∃ (d₁ : Disk) (s₁ : MemWatcherMod) (d₂ : Disk),
      SaveWatches "1.57" (dialogWith [globalInt 3] 0 1) twoVersionStore = some d₁ ∧
      LoadWatches "1.57" MemWatcherMod.init d₁ = some (s₁, d₂) ∧
      s₁.m_watches.map to_json = [to_json (globalInt 3)] ∧
      s₁.m_watches = [globalInt 3].map (fun e => from_json (to_json e)) ∧
      s₁.m_watches.length = 1 :=
  ⟨rfl, save_then_load "1.57" (dialogWith [globalInt 3] 0 1) MemWatcherMod.init twoVersionStore rfl⟩

/-- C1, the code at the failing input.  The store holds one entry under "1.58" and
`LoadWatches` for "1.58" delivers it.  After `SaveWatches` for "1.57" the store holds
the key "1.57" only, and `LoadWatches` for "1.58" delivers no entry. -/
theorem save_drops_other_versions :
    storedFor "1.58" twoVersionStore = some [from_json (to_json (globalInt 7))] ∧
    SaveWatches "1.57" (dialogWith [globalInt 3] 0 1) twoVersionStore =
      some (some (.json (.object [("1.57", [to_json (globalInt 3)])]))) ∧
    storedFor "1.58" (some (.json (.object [("1.57", [to_json (globalInt 3)])]))) = some [] := by
  decide

end ImGTA
